import Mathlib

/-!
Verification of `generate_mock_data.py`: a shallow embedding of its
key-value (AsciiMath) parser, NDJSON signature loader, signal synthesizer
and output writer, together with theorems about their behaviour.

Machine floats are modelled by exact reals; per-call draws of
`np.random.randn` are modelled by an explicit noise sequence passed in.
-/

namespace WarpMock

/-! ## Key-value ("AsciiMath") parser — `parse_key_value_am` (lines 14-29)

A file is modelled as its list of lines.  `ast.literal_eval` is modelled by
an abstract partial literal reader `tryLit : String → Option L`; a stored
value is either a parsed literal (`Sum.inl`) or the raw trimmed string
(`Sum.inr`), exactly as in the `try/except` of the source. -/

/-- Python `str.strip()` whitespace (ASCII part). -/
def isPySpace (c : Char) : Bool :=
  c == ' ' || c == '\t' || c == '\n' || c == '\r' || c == '\x0b' || c == '\x0c'

/-- Python `str.strip()`: drop leading and trailing whitespace. -/
def pyStrip (s : String) : String :=
  ⟨((s.data.dropWhile isPySpace).reverse.dropWhile isPySpace).reverse⟩

/-- `line.split(':', 1)`: split at the first occurrence of `c`; `none`
when `c` does not occur (the `':' not in line` test of line 19). -/
def splitOnFirst (c : Char) : List Char → Option (List Char × List Char)
  | [] => none
  | a :: as =>
    if a == c then some ([], as)
    else (splitOnFirst c as).map (fun p => (a :: p.1, p.2))

/-- The `try: ast.literal_eval / except: raw` of lines 25-28: the parsed
literal when the value text is one, the raw trimmed string otherwise. -/
def literalOrRaw (tryLit : String → Option L) (val : String) : L ⊕ String :=
  match tryLit val with
  | some v => Sum.inl v
  | none => Sum.inr val

/-- Loop body of lines 19-28 for a single line: `none` when the line has no
colon (the `continue`), otherwise the trimmed key together with the
literal-or-raw value. -/
def parseLine (tryLit : String → Option L) (line : String) :
    Option (String × (L ⊕ String)) :=
  match splitOnFirst ':' line.data with
  | none => none
  | some (k, rest) =>
    some (pyStrip ⟨k⟩, literalOrRaw tryLit (pyStrip ⟨rest⟩))

/-- Python dict assignment `meta[key] = val`: overwrite the entry holding
`k` in place, or append a fresh entry. -/
def dictInsert : List (String × α) → String → α → List (String × α)
  | [], k, v => [(k, v)]
  | p :: ps, k, v => if p.1 = k then (k, v) :: ps else p :: dictInsert ps k v

/-- One iteration of the `for line in f` loop of lines 18-28. -/
def amStep (tryLit : String → Option L)
    (meta : List (String × (L ⊕ String))) (line : String) :
    List (String × (L ⊕ String)) :=
  match parseLine tryLit line with
  | none => meta
  | some (k, v) => dictInsert meta k v

/-- `parse_key_value_am` (lines 14-29): fold the per-line step over the
file's lines, starting from the empty dict. -/
def parse_key_value_am (tryLit : String → Option L) (lines : List String) :
    List (String × (L ⊕ String)) :=
  lines.foldl (amStep tryLit) []

/-- The key/value pairs contributed by each line, in file order. -/
def lineDefs (tryLit : String → Option L) (lines : List String) :
    List (String × (L ⊕ String)) :=
  lines.filterMap (parseLine tryLit)

/-- The value of the last line that defines key `k`, if any. -/
def lastValueOf (tryLit : String → Option L) (lines : List String)
    (k : String) : Option (L ⊕ String) :=
  (((lineDefs tryLit lines).filter (fun p => p.1 == k)).getLast?).map Prod.snd

/-- The value contributed for key `k` by a single line, if any. -/
def lineValueFor (tryLit : String → Option L) (line : String) (k : String) :
    Option (L ⊕ String) :=
  match parseLine tryLit line with
  | none => none
  | some p => if p.1 = k then some p.2 else none

/-- Left-biased choice on `Option`. -/
def orO : Option α → Option α → Option α
  | some a, _ => some a
  | none, b => b

theorem orO_none_right (a : Option α) : orO a none = a := by
  cases a <;> rfl

theorem orO_assoc (a b c : Option α) :
    orO (orO a b) c = orO a (orO b c) := by
  cases a <;> rfl

theorem map_orO (f : α → β) (a b : Option α) :
    (orO a b).map f = orO (a.map f) (b.map f) := by
  cases a <;> rfl

theorem getLast?_cons_orO (a : α) (l : List α) :
    (a :: l).getLast? = orO l.getLast? (some a) := by
  induction l generalizing a with
  | nil => rfl
  | cons b bs ih =>
    rw [List.getLast?_cons_cons, ih b]
    cases bs.getLast? <;> rfl

theorem lookup_dictInsert (m : List (String × α)) (k k₀ : String) (v : α) :
    List.lookup k (dictInsert m k₀ v) =
      if k = k₀ then some v else List.lookup k m := by
  induction m with
  | nil =>
    by_cases h : k = k₀
    · simp [dictInsert, List.lookup, h]
    · simp [dictInsert, List.lookup, h, beq_eq_false_iff_ne.mpr h]
  | cons p ps ih =>
    obtain ⟨a, b⟩ := p
    simp only [dictInsert]
    by_cases hp : a = k₀
    · subst hp
      rw [if_pos rfl]
      by_cases h : k = a
      · simp [List.lookup, h]
      · simp [List.lookup, h, beq_eq_false_iff_ne.mpr h]
    · rw [if_neg hp]
      by_cases h : k = a
      · subst h
        have hk0 : ¬k = k₀ := fun hc => hp hc
        simp [List.lookup, hk0]
      · simp [List.lookup, beq_eq_false_iff_ne.mpr h, ih]

theorem lastValueOf_cons (tryLit : String → Option L) (line : String)
    (rest : List String) (k : String) :
    lastValueOf tryLit (line :: rest) k =
      orO (lastValueOf tryLit rest k) (lineValueFor tryLit line k) := by
  unfold lastValueOf lineDefs lineValueFor
  cases hp : parseLine tryLit line with
  | none => simp [List.filterMap_cons, hp, orO_none_right]
  | some p =>
    simp only [List.filterMap_cons, hp]
    by_cases hk : p.1 = k
    · rw [List.filter_cons_of_pos (by simp [hk]), getLast?_cons_orO,
        map_orO, if_pos hk]
      rfl
    · rw [List.filter_cons_of_neg (by simp [hk]), if_neg hk, orO_none_right]

theorem lookup_foldl_amStep (tryLit : String → Option L)
    (lines : List String) (m : List (String × (L ⊕ String))) (k : String) :
    List.lookup k (lines.foldl (amStep tryLit) m) =
      orO (lastValueOf tryLit lines k) (List.lookup k m) := by
  induction lines generalizing m with
  | nil => simp [lastValueOf, lineDefs, orO]
  | cons line rest ih =>
    rw [List.foldl_cons, ih, lastValueOf_cons, orO_assoc]
    congr 1
    cases hp : parseLine tryLit line with
    | none => simp [amStep, lineValueFor, hp, orO]
    | some p =>
      simp only [amStep, lineValueFor, hp]
      rw [lookup_dictInsert]
      by_cases hk : k = p.1
      · rw [if_pos hk, if_pos hk.symm]; rfl
      · have hk2 : ¬p.1 = k := fun h => hk h.symm
        rw [if_neg hk, if_neg hk2]; rfl

/-! ## Signature loader — `load_signatures` (lines 31-36)

`ndjson.load` parses each line of the NDJSON file as JSON; the first
malformed line raises and the error propagates.  JSON decoding of one line
is modelled by an abstract `parseJson : String → Except ε σ`. -/

/-- `true` on `Except.ok`, `false` on `Except.error`. -/
def exceptOk : Except ε α → Bool
  | .ok _ => true
  | .error _ => false

/-- `ndjson.load`: decode every line; the first failure propagates. -/
def mapExcept (f : String → Except ε σ) : List String → Except ε (List σ)
  | [] => .ok []
  | l :: ls =>
    match f l with
    | .error e => .error e
    | .ok s =>
      match mapExcept f ls with
      | .error e => .error e
      | .ok rest => .ok (s :: rest)

/-- `load_signatures` (lines 31-36): decode the NDJSON signature file and
parse the companion key-value metadata file; JSON errors propagate, the
key-value parse is total. -/
def load_signatures (parseJson : String → Except ε σ)
    (tryLit : String → Option L) (ndLines amLines : List String) :
    Except ε (List σ × List (String × (L ⊕ String))) :=
  match mapExcept parseJson ndLines with
  | .error e => .error e
  | .ok sigs => .ok (sigs, parse_key_value_am tryLit amLines)

theorem exceptOk_mapExcept (f : String → Except ε σ) (ls : List String) :
    exceptOk (mapExcept f ls) = ls.all (fun l => exceptOk (f l)) := by
  induction ls with
  | nil => rfl
  | cons l ls ih =>
    simp only [mapExcept, List.all_cons]
    cases hf : f l with
    | error e => simp [exceptOk]
    | ok s =>
      rw [← ih]
      cases hm : mapExcept f ls with
      | error e => simp [exceptOk]
      | ok rest => simp [exceptOk]

/-! ## Signal synthesizer — `synthesize_signal` (lines 38-51)

Machine floats are modelled by exact reals.  `np.random.randn(len(t))` is
modelled by an explicit noise sequence `noise : ℕ → ℝ`. -/

/-- Number of samples of `np.arange(0, duration, 1.0/sampling_rate)`
(line 43): the half-open range `[0, duration)` stepped by `1/sampling_rate`
has `⌈duration * sampling_rate⌉` points. -/
noncomputable def numSamples (sampling_rate duration : ℝ) : ℕ :=
  ⌈duration * sampling_rate⌉₊

/-- `i`-th entry of the time axis `t` (line 43). -/
noncomputable def tSample (sampling_rate : ℝ) (i : ℕ) : ℝ :=
  i * (1 / sampling_rate)

/-- Envelope standard deviation (line 46):
`std = width if width > 0 else duration/8`. -/
noncomputable def resolveStd (width duration : ℝ) : ℝ :=
  if width > 0 then width else duration / 8

/-- Carrier (line 44): `amp * np.sin(2 * np.pi * freq * t)`. -/
noncomputable def carrier (freq amp sampling_rate : ℝ) (i : ℕ) : ℝ :=
  amp * Real.sin (2 * Real.pi * freq * tSample sampling_rate i)

/-- Gaussian envelope (line 47):
`np.exp(-0.5 * ((t - duration/2)/std)**2)`. -/
noncomputable def envelope (width sampling_rate duration : ℝ) (i : ℕ) : ℝ :=
  Real.exp (-(0.5) * ((tSample sampling_rate i - duration / 2) /
    resolveStd width duration) ^ 2)

/-- `synthesize_signal` (lines 38-51): returns the pair
`(t, carrier * env + noise)` with the noise scaled by `0.05 * amp`
(lines 50-51). -/
noncomputable def synthesize_signal (freq width amp sampling_rate : ℝ)
    (duration : ℝ) (noise : ℕ → ℝ) : List ℝ × List ℝ :=
  ((List.range (numSamples sampling_rate duration)).map
      (tSample sampling_rate),
   (List.range (numSamples sampling_rate duration)).map
      (fun i => carrier freq amp sampling_rate i *
        envelope width sampling_rate duration i + 0.05 * amp * noise i))

/-! ## The `main` loop (lines 70-96)

Signature records are JSON objects; the fields the program reads are
modelled explicitly (JSON numbers as exact rationals).  The per-iteration
noise drawn by `np.random.randn` is modelled by `noise : ℕ → ℕ → ℝ`
(iteration number, then sample index). -/

/-- A JSON scalar, as can appear in a signature's `label` field. -/
inductive JVal where
  | str (s : String)
  | num (q : ℚ)
  | bool (b : Bool)
  | null
deriving DecidableEq

/-- Python truthiness of a `JVal` ( `""`, `0`, `False`, `None` are falsy). -/
def truthy : JVal → Bool
  | .str s => decide (s ≠ "")
  | .num q => decide (q ≠ 0)
  | .bool b => b
  | .null => false

/-- One signature record: the fields `main` reads (line 72-75), each
optional.  Equality of records models Python `dict` equality on them. -/
structure Sig where
  label : Option JVal := none
  frequency : Option ℚ := none
  width : Option ℚ := none
  amplitude : Option ℚ := none
deriving DecidableEq

/-- Python `str()` of a stored key-value value: a parsed literal is
rendered by `render`, a raw string is itself. -/
def pyStr (render : L → String) : L ⊕ String → String
  | .inl v => render v
  | .inr s => s

/-- `f"{sig_meta.get('TheoryVariant', 'sig')}"` (line 72). -/
def tvString (render : L → String)
    (meta : List (String × (L ⊕ String))) : String :=
  match List.lookup "TheoryVariant" meta with
  | some v => pyStr render v
  | none => "sig"

/-- The generated fallback label of line 72:
`f"{sig_meta.get('TheoryVariant','sig')}_{sigs.index(sig)+1}"`.
Note `sigs.index(sig)` is the index of the FIRST element equal to `sig`. -/
def fallbackLabel (render : L → String)
    (meta : List (String × (L ⊕ String))) (sigs : List Sig) (sig : Sig) :
    String :=
  tvString render meta ++ "_" ++ toString (sigs.indexOf sig + 1)

/-- `sig.get('label') or f"..."` (line 72): the stored label when present
and truthy, else the generated fallback. -/
def labelFor (render : L → String)
    (meta : List (String × (L ⊕ String))) (sigs : List Sig) (sig : Sig) :
    JVal :=
  match sig.label with
  | some v =>
    if truthy v then v else .str (fallbackLabel render meta sigs sig)
  | none => .str (fallbackLabel render meta sigs sig)

/-- `float(sig.get('frequency', 0.0))` (line 73). -/
noncomputable def freqOf (sig : Sig) : ℝ :=
  match sig.frequency with
  | some q => (q : ℝ)
  | none => 0

/-- `float(sig.get('width', duration/8))` (line 74). -/
noncomputable def widthOf (duration : ℝ) (sig : Sig) : ℝ :=
  match sig.width with
  | some q => (q : ℝ)
  | none => duration / 8

/-- `float(sig.get('amplitude', 1.0))` (line 75). -/
noncomputable def ampOf (sig : Sig) : ℝ :=
  match sig.amplitude with
  | some q => (q : ℝ)
  | none => 1

/-- One element of `out_nd` (lines 78-82). -/
structure OutRecord where
  label : JVal
  sampling_rate : ℤ
  time_series : List ℝ

/-- The `for sig in sigs` loop of lines 70-82: one output record per input
signature, in input order. -/
noncomputable def mainRecords (render : L → String)
    (meta : List (String × (L ⊕ String))) (sr : ℤ) (duration : ℝ)
    (noise : ℕ → ℕ → ℝ) (sigs : List Sig) : List OutRecord :=
  sigs.enum.map (fun p =>
    { label := labelFor render meta sigs p.2,
      sampling_rate := sr,
      time_series := (synthesize_signal (freqOf p.2) (widthOf duration p.2)
        (ampOf p.2) (sr : ℝ) duration (noise p.1)).2 })

/-- `str(inst.get(key))`: `"None"` when the key is absent. -/
def pyStrOpt (render : L → String) : Option (L ⊕ String) → String
  | some v => pyStr render v
  | none => "None"

/-- The summary file contents written by lines 90-96, one `f.write` per
appended piece. -/
def writeSummary (render : L → String)
    (inst : List (String × (L ⊕ String))) (sr : ℤ) (count : ℕ) : String :=
  "[ " ++
    ("InstrumentType = " ++
      pyStrOpt render (List.lookup "InstrumentType" inst) ++ ", ") ++
    ("SamplingRate = " ++ toString sr ++ ", ") ++
    ("NoiseModel = " ++
      pyStrOpt render (List.lookup "NoiseModel" inst) ++ ", ") ++
    ("InjectionCount = " ++ toString count ++ " ") ++
    "]\n"

/-- The summary-line shape as the specification words it:
`[ InstrumentType = <v>, SamplingRate = <v>, NoiseModel = <v>,
InjectionCount = <v> ]` followed by a newline. -/
def bracketLine (v1 v2 v3 v4 : String) : String :=
  "[ InstrumentType = " ++ v1 ++ ", SamplingRate = " ++ v2 ++
    ", NoiseModel = " ++ v3 ++ ", InjectionCount = " ++ v4 ++ " ]\n"

/-- Lines 89-96: `injection_count = len(out_nd)` and the summary write. -/
noncomputable def mainSummary (render : L → String)
    (inst meta : List (String × (L ⊕ String))) (sr : ℤ) (duration : ℝ)
    (noise : ℕ → ℕ → ℝ) (sigs : List Sig) : String :=
  writeSummary render inst sr
    (mainRecords render meta sr duration noise sigs).length

theorem mainRecords_length (render : L → String)
    (meta : List (String × (L ⊕ String))) (sr : ℤ) (duration : ℝ)
    (noise : ℕ → ℕ → ℝ) (sigs : List Sig) :
    (mainRecords render meta sr duration noise sigs).length =
      sigs.length := by
  simp [mainRecords]

/-! ## Theorems about the claims -/

/-- C1: every output sample of `synthesize_signal` at sample index `i`
(time `t = i * (1/sr)`) equals
`amp * sin(2π·freq·t) * exp(-0.5·((t - d/2)/std)²) + 0.05 * amp * noise i`,
with `std` resolved from the width. -/
theorem synthesize_signal_sample_formula
    (freq width amp sr d : ℝ) (noise : ℕ → ℝ) (i : ℕ)
    (h : i < (synthesize_signal freq width amp sr d noise).2.length) :
    (synthesize_signal freq width amp sr d noise).2.get ⟨i, h⟩ =
      amp * Real.sin (2 * Real.pi * freq * ((i : ℝ) * (1 / sr))) *
        Real.exp (-(0.5) *
          (((i : ℝ) * (1 / sr) - d / 2) / resolveStd width d) ^ 2) +
      0.05 * amp * noise i := by
  simp [synthesize_signal, carrier, envelope, tSample] at h ⊢

/-- C1 witness: the sample formula at a concrete input. -/
theorem synthesize_signal_sample_formula_w :
    (synthesize_signal 1 1 1 1 1 (fun _ => 0)).2.get
        ⟨0, by norm_num [synthesize_signal, numSamples]⟩ =
      1 * Real.sin (2 * Real.pi * 1 * (((0 : ℕ) : ℝ) * (1 / 1))) *
        Real.exp (-(0.5) *
          ((((0 : ℕ) : ℝ) * (1 / 1) - 1 / 2) / resolveStd 1 1) ^ 2) +
      0.05 * 1 * 0 :=
  synthesize_signal_sample_formula 1 1 1 1 1 (fun _ => 0) 0
    (by norm_num [synthesize_signal, numSamples])

/-- C2 (amended): for positive duration and sampling rate the time axis
has exactly `⌈d * sr⌉` points (not `round(d * sr)` in general), its `i`-th
point is `i * (1/sr)` (so points lie at `1/sr` intervals starting at `0`),
and every point is strictly below the duration. -/
theorem synthesize_signal_time_axis
    (freq width amp sr d : ℝ) (noise : ℕ → ℝ)
    (hsr : 0 < sr) (_hd : 0 < d) (i : ℕ)
    (h : i < (synthesize_signal freq width amp sr d noise).1.length) :
    (synthesize_signal freq width amp sr d noise).1.length = ⌈d * sr⌉₊ ∧
    (synthesize_signal freq width amp sr d noise).1.get ⟨i, h⟩ =
      (i : ℝ) * (1 / sr) ∧
    (synthesize_signal freq width amp sr d noise).1.get ⟨i, h⟩ < d := by
  have hlen : (synthesize_signal freq width amp sr d noise).1.length =
      ⌈d * sr⌉₊ := by
    simp [synthesize_signal, numSamples]
  have hget : (synthesize_signal freq width amp sr d noise).1.get ⟨i, h⟩ =
      (i : ℝ) * (1 / sr) := by
    simp [synthesize_signal, tSample]
  refine ⟨hlen, hget, ?_⟩
  rw [hget, mul_one_div, div_lt_iff₀ hsr]
  exact Nat.lt_ceil.mp (hlen ▸ h)

/-- C2 witness: the time-axis properties at a concrete input. -/
theorem synthesize_signal_time_axis_w :
    (synthesize_signal 0 1 1 2 1 (fun _ => 0)).1.length = ⌈(1 : ℝ) * 2⌉₊ ∧
    (synthesize_signal 0 1 1 2 1 (fun _ => 0)).1.get
        ⟨0, by norm_num [synthesize_signal, numSamples]⟩ =
      ((0 : ℕ) : ℝ) * (1 / 2) ∧
    (synthesize_signal 0 1 1 2 1 (fun _ => 0)).1.get
        ⟨0, by norm_num [synthesize_signal, numSamples]⟩ < 1 :=
  synthesize_signal_time_axis 0 1 1 2 1 (fun _ => 0)
    (by norm_num) (by norm_num) 0
    (by norm_num [synthesize_signal, numSamples])

/-- C2 counterexample: with `sr = 2` and `d = 11/10` the time axis has
`⌈2.2⌉ = 3` points, but `round(d * sr) = round(2.2) = 2`, so the claimed
count `round(duration * sampling_rate)` is wrong. -/
theorem synthesize_signal_count_ne_round :
    ((synthesize_signal 0 1 1 2 (11 / 10) (fun _ => 0)).1.length : ℤ) ≠
      round ((11 / 10 : ℝ) * 2) := by
  have h1 : (synthesize_signal (0 : ℝ) 1 1 2 (11 / 10)
      (fun _ => 0)).1.length = 3 := by
    simp only [synthesize_signal, numSamples, List.length_map,
      List.length_range]
    rw [show (11 / 10 : ℝ) * 2 = 11 / 5 by norm_num]
    rw [Nat.ceil_eq_iff (by norm_num)]
    constructor <;> norm_num
  have h2 : round ((11 / 10 : ℝ) * 2) = 2 := by
    rw [round_eq, show (11 / 10 : ℝ) * 2 + 1 / 2 = 27 / 10 by norm_num]
    rw [Int.floor_eq_iff]
    constructor <;> norm_num
  rw [h1, h2]
  norm_num

/-- C3: for a non-positive width the effective standard deviation is
`duration / 8` and the synthesized output coincides (for the same noise)
with the output for `width = duration / 8`; for a positive width the
standard deviation is the width itself. -/
theorem synthesize_signal_width_fallback
    (freq width amp sr d : ℝ) (noise : ℕ → ℝ) :
    (width ≤ 0 →
      resolveStd width d = d / 8 ∧
      synthesize_signal freq width amp sr d noise =
        synthesize_signal freq (d / 8) amp sr d noise) ∧
    (0 < width → resolveStd width d = width) := by
  constructor
  · intro hw
    have hstd : resolveStd width d = d / 8 := by
      simp [resolveStd, not_lt.mpr hw]
    have hstd2 : resolveStd (d / 8) d = d / 8 := by
      simp [resolveStd]
    refine ⟨hstd, ?_⟩
    simp [synthesize_signal, envelope, hstd, hstd2]
  · intro hw
    simp [resolveStd, hw]

/-- C3 witness: the width fallback at concrete inputs. -/
theorem synthesize_signal_width_fallback_w :
    (resolveStd 0 1 = 1 / 8 ∧
      synthesize_signal 1 0 1 4 1 (fun _ => 0) =
        synthesize_signal 1 (1 / 8) 1 4 1 (fun _ => 0)) ∧
    resolveStd 1 1 = 1 :=
  ⟨(synthesize_signal_width_fallback 1 0 1 4 1 (fun _ => 0)).1
      (by norm_num),
   (synthesize_signal_width_fallback 1 1 1 4 1 (fun _ => 0)).2
      (by norm_num)⟩

/-- C4: the pipeline produces exactly one output record per input
signature, and the `InjectionCount` written to the summary is that same
count (`injection_count = len(out_nd)`). -/
theorem mainRecords_count (L : Type) (render : L → String)
    (inst meta : List (String × (L ⊕ String))) (sr : ℤ) (d : ℝ)
    (noise : ℕ → ℕ → ℝ) (sigs : List Sig) :
    (mainRecords render meta sr d noise sigs).length = sigs.length ∧
    mainSummary render inst meta sr d noise sigs =
      writeSummary render inst sr sigs.length := by
  refine ⟨mainRecords_length render meta sr d noise sigs, ?_⟩
  rw [mainSummary, mainRecords_length]

/-- C5 (amended): a signature whose mapping lacks `label` receives the
generated label `<TheoryVariant>_<j>`, where `j` is one plus the index of
the FIRST signature in the input list equal to it (its own 1-based
position only when no earlier duplicate exists), and `TheoryVariant`
falls back to `"sig"` when absent from the signature metadata. -/
theorem mainRecords_missing_label (L : Type) (render : L → String)
    (meta : List (String × (L ⊕ String))) (sr : ℤ) (d : ℝ)
    (noise : ℕ → ℕ → ℝ) (sigs : List Sig) (i : ℕ) (h : i < sigs.length)
    (hl : (sigs.get ⟨i, h⟩).label = none) :
    ((mainRecords render meta sr d noise sigs).get
        ⟨i, by rw [mainRecords_length]; exact h⟩).label =
      JVal.str (tvString render meta ++ "_" ++
        toString (sigs.indexOf (sigs.get ⟨i, h⟩) + 1)) ∧
    (List.lookup "TheoryVariant" meta = none →
      tvString render meta = "sig") := by
  constructor
  · simp only [List.get_eq_getElem] at hl ⊢
    simp only [mainRecords, List.getElem_map, List.getElem_enum]
    simp [labelFor, fallbackLabel, hl]
  · intro hm
    simp [tvString, hm]

/-- A signature record with every field absent. -/
def sig0 : Sig := {}

/-- C5 counterexample: two identical unlabeled signatures.  The claim says
the second record's label is `sig_2` (its 1-based position), but the code
computes the index with `sigs.index(sig)` — the first occurrence — so both
records get `sig_1`. -/
theorem mainRecords_label_index_cex :
    ((mainRecords (fun s : String => s)
        ([] : List (String × (String ⊕ String))) 4096 1 (fun _ _ => 0)
        [sig0, sig0]).map OutRecord.label =
      [JVal.str "sig_1", JVal.str "sig_1"]) ∧
    ((mainRecords (fun s : String => s)
        ([] : List (String × (String ⊕ String))) 4096 1 (fun _ _ => 0)
        [sig0, sig0]).map OutRecord.label ≠
      [JVal.str "sig_1", JVal.str "sig_2"]) := by
  constructor
  · rfl
  · intro hc
    have h1 : ((mainRecords (fun s : String => s)
        ([] : List (String × (String ⊕ String))) 4096 1 (fun _ _ => 0)
        [sig0, sig0]).map OutRecord.label) =
      [JVal.str "sig_1", JVal.str "sig_1"] := rfl
    rw [h1] at hc
    exact absurd hc (by decide)

/-- C5 witness: a single unlabeled signature with no `TheoryVariant` gets
the label `sig_1`. -/
theorem mainRecords_missing_label_w :
    ((mainRecords (fun s : String => s)
        ([] : List (String × (String ⊕ String))) 4096 1 (fun _ _ => 0)
        [sig0]).get ⟨0, by rw [mainRecords_length]; decide⟩).label =
      JVal.str "sig_1" ∧
    tvString (fun s : String => s)
      ([] : List (String × (String ⊕ String))) = "sig" := by
  have h := mainRecords_missing_label String (fun s => s) [] 4096 1
    (fun _ _ => 0) [sig0] 0 (by decide) (by rfl)
  exact ⟨h.1.trans (by decide), h.2 (by rfl)⟩

/-- C10: a `label` field holding a Python-falsy value (`""`, `None`, `0`,
`False`) is replaced by the generated fallback label, exactly as if the
field were absent (`sig.get('label') or ...`). -/
theorem mainRecords_falsy_label (L : Type) (render : L → String)
    (meta : List (String × (L ⊕ String))) (sr : ℤ) (d : ℝ)
    (noise : ℕ → ℕ → ℝ) (sigs : List Sig) (i : ℕ) (h : i < sigs.length)
    (v : JVal) (hv : (sigs.get ⟨i, h⟩).label = some v)
    (hfalsy : truthy v = false) :
    truthy (JVal.str "") = false ∧ truthy JVal.null = false ∧
    truthy (JVal.num 0) = false ∧ truthy (JVal.bool false) = false ∧
    ((mainRecords render meta sr d noise sigs).get
        ⟨i, by rw [mainRecords_length]; exact h⟩).label =
      JVal.str (tvString render meta ++ "_" ++
        toString (sigs.indexOf (sigs.get ⟨i, h⟩) + 1)) := by
  refine ⟨by decide, rfl, by decide, rfl, ?_⟩
  simp only [List.get_eq_getElem] at hv ⊢
  simp only [mainRecords, List.getElem_map, List.getElem_enum]
  simp [labelFor, fallbackLabel, hv, hfalsy]

/-- A signature record whose `label` field holds the empty string. -/
def sigE : Sig := { label := some (JVal.str "") }

/-- C10 witness: a signature labeled `""` gets the fallback `sig_1`. -/
theorem mainRecords_falsy_label_w :
    truthy (JVal.str "") = false ∧
    ((mainRecords (fun s : String => s)
        ([] : List (String × (String ⊕ String))) 4096 1 (fun _ _ => 0)
        [sigE]).get ⟨0, by rw [mainRecords_length]; decide⟩).label =
      JVal.str "sig_1" := by
  have h := mainRecords_falsy_label String (fun s => s) [] 4096 1
    (fun _ _ => 0) [sigE] 0 (by decide) (JVal.str "") (by rfl) (by decide)
  exact ⟨h.1, h.2.2.2.2.trans (by decide)⟩

/-- C6: the parser maps each colon-bearing line to its first-colon split
with both sides trimmed and the value interpreted as a literal when
possible (raw string otherwise); colon-free lines contribute nothing; and
for a duplicated key the mapping holds the value of the last defining
line. -/
theorem parse_key_value_am_spec (L : Type) (tryLit : String → Option L)
    (lines : List String) (k : String) (line : String) :
    List.lookup k (parse_key_value_am tryLit lines) =
      lastValueOf tryLit lines k ∧
    (splitOnFirst ':' line.data = none → parseLine tryLit line = none) ∧
    (∀ pre post, splitOnFirst ':' line.data = some (pre, post) →
      parseLine tryLit line = some (pyStrip ⟨pre⟩,
        literalOrRaw tryLit (pyStrip ⟨post⟩))) ∧
    (parseLine tryLit line = none →
      ∀ meta, amStep tryLit meta line = meta) := by
  refine ⟨?_, ?_, ?_, ?_⟩
  · rw [parse_key_value_am, lookup_foldl_amStep]
    simp [List.lookup, orO_none_right]
  · intro h
    simp [parseLine, h]
  · intro pre post h
    simp [parseLine, h]
  · intro h meta
    simp [amStep, h]

/-- C6 witness: concrete parses — last duplicate wins, a colon-free line
is skipped and contributes nothing, an unparsable value is stored raw. -/
theorem parse_key_value_am_spec_w :
    List.lookup "a" (parse_key_value_am (fun _ => (none : Option String))
        ["a: 1", "nocolon", " a :2"]) = some (Sum.inr "2") ∧
    parseLine (fun _ => (none : Option String)) "nocolon" = none ∧
    parseLine (fun _ => (none : Option String)) "k: v" =
      some ("k", Sum.inr "v") ∧
    amStep (fun _ => (none : Option String)) [] "nocolon" = [] := by
  refine ⟨?_, ?_, ?_, ?_⟩
  · exact (parse_key_value_am_spec String (fun _ => none)
      ["a: 1", "nocolon", " a :2"] "a" "").1.trans (by decide)
  · exact (parse_key_value_am_spec String (fun _ => none) [] "a"
      "nocolon").2.1 (by decide)
  · exact ((parse_key_value_am_spec String (fun _ => none) [] "a"
      "k: v").2.2.1 "k".data " v".data (by decide)).trans (by decide)
  · exact (parse_key_value_am_spec String (fun _ => none) [] "a"
      "nocolon").2.2.2 (by decide) []

/-- C7: a JSON decoding failure on any NDJSON line makes the signature
loader fail (the error propagates; it succeeds exactly when every line
decodes), while the key-value parser absorbs malformed content: a
colon-free line leaves the mapping unchanged and an unparsable value
literal is stored as the raw trimmed string — neither is an error. -/
theorem load_signatures_error_asymmetry (ε σ L : Type)
    (parseJson : String → Except ε σ) (tryLit : String → Option L)
    (ndLines amLines : List String) (line : String) :
    exceptOk (load_signatures parseJson tryLit ndLines amLines) =
      ndLines.all (fun l => exceptOk (parseJson l)) ∧
    (splitOnFirst ':' line.data = none →
      ∀ meta, amStep tryLit meta line = meta) ∧
    (∀ pre post, splitOnFirst ':' line.data = some (pre, post) →
      tryLit (pyStrip ⟨post⟩) = none →
      parseLine tryLit line =
        some (pyStrip ⟨pre⟩, Sum.inr (pyStrip ⟨post⟩))) := by
  refine ⟨?_, ?_, ?_⟩
  · rw [← exceptOk_mapExcept]
    unfold load_signatures
    cases hm : mapExcept parseJson ndLines <;> rfl
  · intro h meta
    simp [amStep, parseLine, h]
  · intro pre post h ht
    simp [parseLine, literalOrRaw, h, ht]

/-- C7 witness: a failing JSON line makes the loader fail; an all-ok file
loads; a colon-free line and an unparsable literal are absorbed. -/
theorem load_signatures_error_asymmetry_w :
    exceptOk (load_signatures (fun _ => (Except.error 0 : Except ℕ Unit))
        (fun _ => (none : Option String)) ["bad"] []) = false ∧
    exceptOk (load_signatures (fun _ => (Except.ok () : Except ℕ Unit))
        (fun _ => (none : Option String)) ["good"] []) = true ∧
    amStep (fun _ => (none : Option String)) [] "nocolon" = [] ∧
    parseLine (fun _ => (none : Option String)) "k: v" =
      some ("k", Sum.inr "v") := by
  refine ⟨?_, ?_, ?_, ?_⟩
  · exact (load_signatures_error_asymmetry ℕ Unit String
      (fun _ => Except.error 0) (fun _ => none) ["bad"] [] "").1.trans
      (by decide)
  · exact (load_signatures_error_asymmetry ℕ Unit String
      (fun _ => Except.ok ()) (fun _ => none) ["good"] [] "").1.trans
      (by decide)
  · exact (load_signatures_error_asymmetry ℕ Unit String
      (fun _ => Except.error 0) (fun _ => none) [] [] "nocolon").2.1
      (by decide) []
  · exact (load_signatures_error_asymmetry ℕ Unit String
      (fun _ => Except.error 0) (fun _ => none) [] [] "k: v").2.2
      "k".data " v".data (by decide) (by rfl)

/-- C9: the key-value parser is a pure function of the file content —
two parses of identical lines give identical mappings, hence identical
lookups for every key. -/
theorem parse_key_value_am_deterministic (L : Type)
    (tryLit : String → Option L) (lines : List String) :
    parse_key_value_am tryLit lines = parse_key_value_am tryLit lines ∧
    ∀ k, List.lookup k (parse_key_value_am tryLit lines) =
      List.lookup k (parse_key_value_am tryLit lines) :=
  ⟨rfl, fun _ => rfl⟩

theorem string_data_append (x y : String) :
    (x ++ y).data = x.data ++ y.data := by
  cases x; cases y; rfl

theorem string_ext_of_data {x y : String} (h : x.data = y.data) : x = y := by
  cases x; cases y; exact congrArg String.mk h

/-- C8: the summary the writer emits is exactly the bracketed line
`[ InstrumentType = <v>, SamplingRate = <v>, NoiseModel = <v>,
InjectionCount = <v> ]` followed by a newline, with each placeholder
rendered as its literal value; when the rendered values contain no
newline the emitted text contains exactly one newline (at the end). -/
theorem writeSummary_format (L : Type) (render : L → String)
    (inst : List (String × (L ⊕ String))) (sr : ℤ) (count : ℕ) :
    writeSummary render inst sr count =
      bracketLine (pyStrOpt render (List.lookup "InstrumentType" inst))
        (toString sr) (pyStrOpt render (List.lookup "NoiseModel" inst))
        (toString count) ∧
    ((pyStrOpt render (List.lookup "InstrumentType" inst)).data.count
        '\n' = 0 →
      (toString sr).data.count '\n' = 0 →
      (pyStrOpt render (List.lookup "NoiseModel" inst)).data.count
        '\n' = 0 →
      (toString count).data.count '\n' = 0 →
      (writeSummary render inst sr count).data.count '\n' = 1) := by
  constructor
  · apply string_ext_of_data
    simp only [writeSummary, bracketLine, string_data_append,
      List.append_assoc]
    rfl
  · intro h1 h2 h3 h4
    simp only [writeSummary, string_data_append, List.count_append,
      h1, h2, h3, h4]
    decide

/-- C8 witness: the summary at a concrete instrument mapping and count. -/
theorem writeSummary_format_w :
    writeSummary (fun s : String => s)
        ([] : List (String × (String ⊕ String))) 100 1 =
      bracketLine "None" "100" "None" "1" ∧
    (writeSummary (fun s : String => s)
        ([] : List (String × (String ⊕ String))) 100 1).data.count
      '\n' = 1 := by
  have h := writeSummary_format String (fun s => s) [] 100 1
  exact ⟨h.1.trans (by decide),
    h.2 (by decide) (by decide) (by decide) (by decide)⟩

end WarpMock
